import Mathlib

set_option maxHeartbeats 1000000

/-! Verification of the integrated build-job subsystem of LocalSignTool.

The definitions below are a shallow embedding of src/builders/integrated_job.go
and src/signing/cli.go. External collaborators (the tar reader, the storage
maps, the filesystem and the child process) are modelled at their interfaces:
every external call an attempt performs is resolved through an explicit
environment record, while the repository's own control flow is translated
branch by branch. -/

/-- Whitespace as trimmed by Go's strings.TrimSpace (the ASCII space class). -/
def isSpaceChar (c : Char) : Bool :=
  c = ' ' || c = '\t' || c = '\n' || c = '\x0b' || c = '\x0c' || c = '\r'

/-- Modelled from the spec: util.TrimWhitespace (package util is not among the
provided sources) removes leading and trailing whitespace, like Go's
strings.TrimSpace; the spec calls the result the "trimmed" text. -/
def trimWhitespace (s : String) : String :=
  String.mk (((s.data.dropWhile isSpaceChar).reverse.dropWhile isSpaceChar).reverse)

/-- Association-list lookup, the model of reading a Go map (the storage
collaborators are keyed stores per spec section 4.3). -/
def lookupKey {α : Type} : List (String × α) → String → Option α
  | [], _ => none
  | (k, v) :: rest, key => if k = key then some v else lookupKey rest key

/-- Association-list update-or-insert, the model of writing a Go map key. -/
def setKey {α : Type} : List (String × α) → String → α → List (String × α)
  | [], key, v => [(key, v)]
  | (k, w) :: rest, key, v =>
    if k = key then (key, v) :: rest else (k, w) :: setKey rest key v

/-- Association-list key removal, the model of Go's delete on a map. -/
def removeKey {α : Type} : List (String × α) → String → List (String × α)
  | [], _ => []
  | (k, v) :: rest, key =>
    if k = key then removeKey rest key else (k, v) :: removeKey rest key

theorem lookupKey_removeKey {α : Type} (l : List (String × α)) (key : String) :
    lookupKey (removeKey l key) key = none := by
  induction l with
  | nil => rfl
  | cons p rest ih =>
    obtain ⟨k, v⟩ := p
    by_cases h : k = key
    · simpa [removeKey, h] using ih
    · simpa [removeKey, lookupKey, h] using ih

theorem lookupKey_setKey {α : Type} (l : List (String × α)) (key : String) (v : α) :
    lookupKey (setKey l key v) key = some v := by
  induction l with
  | nil => simp [setKey, lookupKey]
  | cons p rest ih =>
    obtain ⟨k, w⟩ := p
    by_cases h : k = key
    · simp [setKey, h, lookupKey]
    · simpa [setKey, lookupKey, h] using ih

theorem removeKey_of_lookupKey_none {α : Type} (l : List (String × α)) (key : String)
    (h : lookupKey l key = none) : removeKey l key = l := by
  induction l with
  | nil => rfl
  | cons p rest ih =>
    obtain ⟨k, v⟩ := p
    by_cases hk : k = key
    · simp [lookupKey, hk] at h
    · simp only [lookupKey, if_neg hk] at h
      simp [removeKey, hk, ih h]

/-- One archive entry as delivered by tar.Reader (an external collaborator,
modelled at its interface): the header name, whether it is a directory, the
permission bits, and the payload. `payload = none` models an entry whose
declared size exceeds the bytes actually available, so that reading the body
(io.ReadFull or io.Copy from the tar reader) fails. -/
structure TarEntry where
  name : String
  isDir : Bool
  mode : Nat
  payload : Option String
deriving DecidableEq, Repr

/-- One result of tar.Reader.Next: either a parsed entry header, or a non-EOF
read error; the end of the event list models a clean io.EOF. A malformed,
truncated or empty byte buffer is any event list ending in `readErr` or
containing truncated entries. -/
inductive TarEvent where
  | entry (e : TarEntry)
  | readErr
deriving DecidableEq, Repr

/-- extractJobIdFromArchive (integrated_job.go lines 47-73): scan the archive
entries in order; on the first entry named id.txt return its trimmed body if
it can be read in full, otherwise the empty string; on any read error or on
EOF without such an entry return the empty string. The function is total, so
the embedding also witnesses that no input makes it fail. -/
def extractJobIdFromArchive : List TarEvent → String
  | [] => ""
  | .readErr :: _ => ""
  | .entry e :: rest =>
    if e.name = "id.txt" then
      match e.payload with
      | some p => trimWhitespace p
      | none => ""
    else
      extractJobIdFromArchive rest

/-- Spec-side description of the scan: the first entry named id.txt reachable
before any read error, if one exists. -/
def findIdEntry : List TarEvent → Option TarEntry
  | [] => none
  | .readErr :: _ => none
  | .entry e :: rest => if e.name = "id.txt" then some e else findIdEntry rest

/-- Absolute filesystem paths as component lists. -/
abbrev FsPath := List String

/-- Go's filepath.Join(acc, ...) followed by Clean, restricted to appending the
components of one relative name: empty and dot components are dropped, a
dot-dot component removes the last component accumulated so far (and is a
no-op at the root), anything else is appended. -/
def cleanAppend : FsPath → List String → FsPath
  | acc, [] => acc
  | acc, c :: rest =>
    if c = "" ∨ c = "." then cleanAppend acc rest
    else if c = ".." then cleanAppend acc.dropLast rest
    else cleanAppend (acc ++ [c]) rest

/-- Split a character list on a separator, like Go's strings.Split: the empty
input yields one empty component. -/
def splitOnChar (sep : Char) : List Char → List (List Char)
  | [] => [[]]
  | c :: rest =>
    if c = sep then [] :: splitOnChar sep rest
    else
      match splitOnChar sep rest with
      | [] => [[c]]
      | g :: gs => (c :: g) :: gs

/-- Split a Go path string into its slash-separated components. -/
def splitPath (s : String) : List String :=
  (splitOnChar '/' s.data).map String.mk

/-- The target path the extraction loop computes for an archive entry:
filepath.Join(workDir, header.Name) (integrated_job.go line 172). -/
def entryTargetPath (workDir : FsPath) (name : String) : FsPath :=
  cleanAppend workDir (splitPath name)

/-- One filesystem node created by the sandbox extraction loop: the resolved
target path and whether it is a directory. -/
structure FsWrite where
  path : FsPath
  isDir : Bool
deriving DecidableEq, Repr

/-- Sandbox extraction loop of ProcessIntegratedJob (integrated_job.go lines
162-193): every entry is materialized at filepath.Join(workDir, header.Name),
with no validation of the header name. Returns the nodes created, in order,
and the error that ended the loop, if any; a truncated file body still creates
the (partial) file before the write error is returned. Parent-directory
creation (os.MkdirAll on the target's parent) is implied by each file write
and not listed separately. -/
def extractArchive (workDir : FsPath) : List TarEvent → List FsWrite × Option String
  | [] => ([], none)
  | .readErr :: _ => ([], some "read tar")
  | .entry e :: rest =>
    let target := entryTargetPath workDir e.name
    if e.isDir then
      let step := extractArchive workDir rest
      ({ path := target, isDir := true } :: step.1, step.2)
    else
      match e.payload with
      | none => ([{ path := target, isDir := false }], some ("write file " ++ e.name))
      | some _ =>
        let step := extractArchive workDir rest
        ({ path := target, isDir := false } :: step.1, step.2)

/-- Modelled from the spec: a queue entry (Return Job) references exactly one
application id and carries the two-factor slot, a string that is empty while
unset (section 4.4; the atomic string load of an unset slot yields ""). -/
structure RJob where
  appId : String
  twoFactorCode : String
deriving DecidableEq, Repr

/-- Modelled from the spec: an application record owns named byte blobs (such
as "unsigned" and "signed") and named string metadata (section 3). -/
structure AppRec where
  files : List (String × String)
  strs : List (String × String)
deriving DecidableEq, Repr

/-- Modelled from the spec: the storage state visible to the subsystem - the
job queue keyed by job id and the application store keyed by app id. -/
structure SysState where
  jobs : List (String × RJob)
  apps : List (String × AppRec)
deriving DecidableEq, Repr

/-- jobStorage.DeleteById as a state transformer (idempotent map delete,
spec section 4.3); the Bool result the source sometimes logs is
whether the entry existed. -/
def jobsDelete (st : SysState) (jobId : String) : SysState :=
  { st with jobs := removeKey st.jobs jobId }

/-- app.SetFile: store a named blob on the application. -/
def AppRec.setFile (a : AppRec) (name content : String) : AppRec :=
  { a with files := setKey a.files name content }

/-- app.SetString: store named string metadata on the application. -/
def AppRec.setString (a : AppRec) (name v : String) : AppRec :=
  { a with strs := setKey a.strs name v }

/-- The command the worker is about to start: executable path, working
directory and full environment. -/
structure Cmd where
  exePath : FsPath
  dir : FsPath
  env : List String
deriving DecidableEq, Repr

/-- Environment preparation (integrated_job.go lines 216-224): start from the
ambient os.Environ(), append one key=value string per builder secret, then
PYTHONUNBUFFERED=1 and the integrated-mode flag INTEGRATED_BUILDER=1. Go map
iteration order is unspecified, so the secrets are given as an ordered list of
pairs. -/
def buildSignEnv (ambient : List String) (secrets : List (String × String)) : List String :=
  (ambient ++ secrets.map (fun p => p.1 ++ "=" ++ p.2)) ++
    ["PYTHONUNBUFFERED=1", "INTEGRATED_BUILDER=1"]

/-- Command construction (integrated_job.go lines 226-230): the entrypoint
resolved under the sandbox, cmd.Dir set to the sandbox root, cmd.Env set to
the prepared environment. -/
def signCmd (workDir : FsPath) (entrypoint : String) (ambient : List String)
    (secrets : List (String × String)) : Cmd :=
  { exePath := cleanAppend workDir (splitPath entrypoint)
    dir := workDir
    env := buildSignEnv ambient secrets }

/-- Contents of the shared capture buffer: every scanned line from either
stream is written as the line followed by a newline (integrated_job.go lines
262-263 and 283-284). -/
def linesJoin : List String → String
  | [] => ""
  | l :: rest => l ++ "\n" ++ linesJoin rest

/-- Resolution of every external call one job attempt performs, in source
order. Each `Option String` field is the error the corresponding call
returned (`none` meaning success): os.MkdirTemp, filepath.Abs, the sign-files
copy, app.GetFile "unsigned", creating and filling unsigned.ipa, the two pipe
constructors, cmd.Start, and cmd.Wait (`runErr`, some for a non-zero exit or
the deadline). `outputLines` is the combined capture of both streams in the
order the drain goroutines observed them; `signedIpa` and `bundleIdTxt` are
the files the entrypoint left in the sandbox. -/
structure JobEnv where
  workDir : FsPath
  tempDirErr : Option String
  absErr : Option String
  copySignFilesErr : Option String
  getUnsignedErr : Option String
  createUnsignedErr : Option String
  copyUnsignedErr : Option String
  stdoutPipeErr : Option String
  stderrPipeErr : Option String
  startErr : Option String
  runErr : Option String
  outputLines : List String
  signedIpa : Option String
  openSignedErr : Option String
  setSignedErr : Option String
  bundleIdTxt : Option String
  ambientEnv : List String
  secrets : List (String × String)
  entrypoint : String
deriving DecidableEq, Repr

/-- The per-attempt inner closure of ProcessIntegratedJob (integrated_job.go
lines 144-336), with every external call resolved through `env`. Error
strings follow errors.WithMessage's "context: cause" shape. On success the
signed blob is stored on the application, the trimmed bundle id is stored when
bundle_id.txt exists (a SetString failure is only logged), and the queue entry
is deleted (a false DeleteById result is only logged). -/
def innerJob (env : JobEnv) (st : SysState) (appId returnJobId : String)
    (archive : List TarEvent) : Except String SysState :=
  match env.tempDirErr with
  | some e => .error ("make temp dir: " ++ e)
  | none =>
  match env.absErr with
  | some e => .error ("get work dir absolute path: " ++ e)
  | none =>
  match env.copySignFilesErr with
  | some e => .error ("copy sign files: " ++ e)
  | none =>
  match (extractArchive env.workDir archive).2 with
  | some e => .error e
  | none =>
  match lookupKey st.apps appId with
  | none => .error ("app not found: " ++ appId)
  | some app =>
  match env.getUnsignedErr with
  | some e => .error ("get unsigned file: " ++ e)
  | none =>
  match env.createUnsignedErr with
  | some e => .error ("create unsigned.ipa: " ++ e)
  | none =>
  match env.copyUnsignedErr with
  | some e => .error ("copy unsigned.ipa: " ++ e)
  | none =>
  let _cmd := signCmd env.workDir env.entrypoint env.ambientEnv env.secrets
  match env.stdoutPipeErr with
  | some e => .error ("create stdout pipe: " ++ e)
  | none =>
  match env.stderrPipeErr with
  | some e => .error ("create stderr pipe: " ++ e)
  | none =>
  match env.startErr with
  | some e => .error ("start sign script: " ++ e)
  | none =>
  match env.runErr with
  | some e => .error ("sign script: " ++ e ++ ": " ++ linesJoin env.outputLines)
  | none =>
  match env.signedIpa with
  | none => .error "signed app not found"
  | some signedContent =>
  match env.openSignedErr with
  | some e => .error ("open signed app: " ++ e)
  | none =>
  match env.setSignedErr with
  | some e => .error ("set signed file: " ++ e)
  | none =>
  let app1 := app.setFile "signed" signedContent
  let app2 := match env.bundleIdTxt with
    | some b => app1.setString "bundle_id" (trimWhitespace b)
    | none => app1
  let st1 : SysState := { st with apps := setKey st.apps appId app2 }
  .ok (jobsDelete st1 returnJobId)

/-- Outcome of taking the next job: jobStorage.TakeLastJob writing through the
pipe into the archive buffer (integrated_job.go lines 80-112). `notFound`
models an errNotFound from TakeLastJob (idle); `takeErr` any other TakeLastJob
error (the buffer is then discarded); `copyErr` an io.Copy failure while
draining the pipe, together with the archive events readable from the
partially filled buffer; `ok` a fully read buffer. -/
inductive TakeOutcome where
  | notFound
  | takeErr (msg : String)
  | copyErr (msg : String) (readSoFar : List TarEvent)
  | ok (archive : List TarEvent)
deriving DecidableEq, Repr

/-- ProcessIntegratedJob (integrated_job.go lines 78-349): take the next job
archive; an errNotFound is success (idle); an io.Copy failure still extracts
the job id from the partial buffer and deletes that queue entry before the
read error propagates; otherwise resolve the job id (failing if absent), look
up the queue entry (failing if absent), run the inner attempt, and on an
inner failure delete the queue entry before returning the error. -/
def processIntegratedJob (take : TakeOutcome) (env : JobEnv) (st : SysState) :
    Except String Unit × SysState :=
  match take with
  | .notFound => (.ok (), st)
  | .takeErr msg => (.error msg, st)
  | .copyErr msg readSoFar =>
    let rid := extractJobIdFromArchive readSoFar
    if rid = "" then (.error msg, st)
    else (.error msg, jobsDelete st rid)
  | .ok archive =>
    let returnJobId := extractJobIdFromArchive archive
    if returnJobId = "" then (.error "job id not found in archive", st)
    else
      match lookupKey st.jobs returnJobId with
      | none => (.error ("return job not found: " ++ returnJobId), st)
      | some job =>
        match innerJob env st job.appId returnJobId archive with
        | .error e => (.error e, jobsDelete st returnJobId)
        | .ok st2 => (.ok (), st2)

/-- Case-sensitive substring containment over the characters of a string, the
model of Go's strings.Contains. -/
def containsStr (s pat : String) : Bool :=
  s.toList.tails.any (fun t => pat.toList.isPrefixOf t)

/-- The stdout classifier of the drain goroutine (integrated_job.go lines
266-272): the line, lowered, contains "error", "failed", "exception", the
full two-factor prompt sentence, "please enter", or "2fa" together with
"code" or "required". -/
def isImportantStdoutLine (line : String) : Bool :=
  let l := line.toLower
  containsStr l "error" ||
  containsStr l "failed" ||
  containsStr l "exception" ||
  containsStr l "two-factor authentication (2fa) code" ||
  containsStr l "please enter" ||
  (containsStr l "2fa" && (containsStr l "code" || containsStr l "required"))

/-- The classifier's two-factor prompt clauses, named so the spec's "a
two-factor prompt phrase" can be stated as one bucket. -/
def isTwoFactorPromptLine (l : String) : Bool :=
  containsStr l "two-factor authentication (2fa) code" ||
  (containsStr l "2fa" && (containsStr l "code" || containsStr l "required"))

/-- Effect of draining one line from a stream: what is appended to the shared
capture buffer and whether a structured log line is emitted. -/
structure LineEffect where
  captured : String
  logged : Bool
deriving DecidableEq, Repr

/-- Handling of one stdout line (integrated_job.go lines 261-275): the line
plus a newline always goes to the capture buffer (and the live sink); a
structured log line is emitted only when the classifier matches. -/
def handleStdoutLine (line : String) : LineEffect :=
  { captured := line ++ "\n", logged := isImportantStdoutLine line }

/-- Handling of one stderr line (integrated_job.go lines 282-287): the line
plus a newline always goes to the capture buffer, and a structured warning is
always emitted. -/
def handleStderrLine (line : String) : LineEffect :=
  { captured := line ++ "\n", logged := true }

/-- One poll iteration's view of storage inside processIntegratedJobDirectly.
Modelled from the spec: storage.Jobs.GetByAppId yields the queue entry's job
id when an entry for the application exists; app.IsSigned is the presence of
the "signed" artifact (spec sections 4.3 and 4.4); GetStatusByAppId is
consistent with GetByAppId, so with no entry it reports not pending and not
existing. -/
structure PollObs where
  entry : Option String
  signed : Bool
deriving DecidableEq, Repr

/-- Outcome of the synchronous Wait Loop. -/
inductive WaitOutcome where
  | success
  | completedNotSigned
  | timeoutExpired
deriving DecidableEq, Repr

/-- The Wait Loop of processIntegratedJobDirectly (cli.go lines 179-224): each
list element is one poll made before the builder's job deadline, the empty
list the elapsed deadline. While the entry exists the loop only does log-side
2FA bookkeeping (elided, it cannot change the outcome) and polls again; once
the entry is gone it succeeds exactly when the application is signed, and
otherwise reports the completed-but-not-signed failure ("job completed but
app is not signed"); exhausting the deadline reports the timeout failure
("timeout waiting for job to be processed"). -/
def waitLoop : List PollObs → WaitOutcome
  | [] => .timeoutExpired
  | o :: rest =>
    match o.entry with
    | some _ => waitLoop rest
    | none => if o.signed then .success else .completedNotSigned

/-- Modelled from the spec: storage.Jobs.GetByAppId, lookup of the (at most
one) queue entry referencing an application id (spec sections 4.3 and 2,
invariant of one entry per application). -/
def findJobByAppId (jobs : List (String × RJob)) (appId : String) :
    Option (String × RJob) :=
  jobs.find? (fun p => p.2.appId == appId)

/-- Prompt2FA (cli.go lines 228-245): read a line from standard input (the
read result is the only failure source), trim it, store the trimmed code into
the queue entry's two-factor slot when an entry for the app id exists - and
silently keep going when none does - then return the trimmed code. -/
def prompt2FA (readResult : Except String String) (st : SysState) (appId : String) :
    Except String String × SysState :=
  match readResult with
  | .error e => (.error ("read 2FA code: " ++ e), st)
  | .ok raw =>
    let code := trimWhitespace raw
    match findJobByAppId st.jobs appId with
    | some jentry =>
      (.ok code,
        { st with jobs := setKey st.jobs jentry.1 { jentry.2 with twoFactorCode := code } })
    | none => (.ok code, st)

/-- C7: when no job is pending (TakeLastJob fails with errNotFound),
ProcessIntegratedJob returns success without touching any queue entry,
application or filesystem state: idleness is never propagated as an error. -/
theorem processIntegratedJob_notFound_idle (env : JobEnv) (st : SysState) :
    processIntegratedJob .notFound env st = (.ok (), st) := rfl

/-- C3: the extraction loop validates no entry name: the concrete archive
entry named "../evil.txt", extracted into the sandbox tmp/sandbox, is written
to tmp/evil.txt - outside the sandbox - and the loop reports no error instead
of rejecting the entry as an unsafe path. -/
theorem extractArchive_traversal_escapes :
    extractArchive ["tmp", "sandbox"]
        [TarEvent.entry { name := "../evil.txt", isDir := false, mode := 420,
                          payload := some "x" }]
      = ([{ path := ["tmp", "evil.txt"], isDir := false }], none)
    ∧ List.isPrefixOf ["tmp", "sandbox"] ["tmp", "evil.txt"] = false := by
  constructor
  · rfl
  · rfl

/-- C5: extractJobIdFromArchive is total over every modelled byte buffer; it
returns the trimmed body of the first id.txt entry when that entry can be
read in full before any stream error, and the not-found empty string when
that entry's body is truncated, or when no id.txt entry precedes the end or a
read error of the stream (so an empty, truncated or corrupted archive yields
the empty string rather than a failure). -/
theorem extractJobId_characterization (evts : List TarEvent) :
    (∀ e p, findIdEntry evts = some e → e.payload = some p →
        extractJobIdFromArchive evts = trimWhitespace p)
    ∧ (∀ e, findIdEntry evts = some e → e.payload = none →
        extractJobIdFromArchive evts = "")
    ∧ (findIdEntry evts = none → extractJobIdFromArchive evts = "") := by
  induction evts with
  | nil =>
    exact ⟨by intro e p hf; simp [findIdEntry] at hf,
           by intro e hf; simp [findIdEntry] at hf,
           fun _ => rfl⟩
  | cons ev rest ih =>
    cases ev with
    | readErr =>
      exact ⟨by intro e p hf; simp [findIdEntry] at hf,
             by intro e hf; simp [findIdEntry] at hf,
             fun _ => rfl⟩
    | entry e =>
      by_cases hn : e.name = "id.txt"
      · refine ⟨?_, ?_, ?_⟩
        · intro e' p hf hp
          simp [findIdEntry, hn] at hf
          subst hf
          simp [extractJobIdFromArchive, hn, hp]
        · intro e' hf hp
          simp [findIdEntry, hn] at hf
          subst hf
          simp [extractJobIdFromArchive, hn, hp]
        · intro hf
          simp [findIdEntry, hn] at hf
      · refine ⟨?_, ?_, ?_⟩
        · intro e' p hf hp
          simp only [findIdEntry, if_neg hn] at hf
          simp only [extractJobIdFromArchive, if_neg hn]
          exact ih.1 e' p hf hp
        · intro e' hf hp
          simp only [findIdEntry, if_neg hn] at hf
          simp only [extractJobIdFromArchive, if_neg hn]
          exact ih.2.1 e' hf hp
        · intro hf
          simp only [findIdEntry, if_neg hn] at hf
          simp only [extractJobIdFromArchive, if_neg hn]
          exact ih.2.2 hf

/-- Witness for C5 at a concrete one-entry archive carrying id.txt. -/
theorem extractJobId_characterization_check :
    extractJobIdFromArchive
        [TarEvent.entry { name := "id.txt", isDir := false, mode := 420,
                          payload := some " job-7 " }]
      = "job-7" := by
  have h :=
    (extractJobId_characterization
        [TarEvent.entry { name := "id.txt", isDir := false, mode := 420,
                          payload := some " job-7 " }]).1
      { name := "id.txt", isDir := false, mode := 420, payload := some " job-7 " }
      " job-7 " (by rfl) rfl
  rw [h]
  decide

/-- C8: a structured log line is emitted for a stdout line exactly when the
lowered line contains "error", "failed", "exception", a two-factor prompt
phrase, or "please enter"; a stderr line always yields a warning; and every
line from either stream is appended, with its newline, to the capture buffer
regardless of classification. -/
theorem streamLine_classification (line : String) :
    (handleStdoutLine line).logged =
      (containsStr line.toLower "error" || containsStr line.toLower "failed" ||
        containsStr line.toLower "exception" || isTwoFactorPromptLine line.toLower ||
        containsStr line.toLower "please enter")
    ∧ (handleStdoutLine line).captured = line ++ "\n"
    ∧ (handleStderrLine line).logged = true
    ∧ (handleStderrLine line).captured = line ++ "\n" := by
  refine ⟨?_, rfl, rfl, rfl⟩
  simp only [handleStdoutLine, isImportantStdoutLine, isTwoFactorPromptLine]
  generalize containsStr line.toLower "error" = b1
  generalize containsStr line.toLower "failed" = b2
  generalize containsStr line.toLower "exception" = b3
  generalize containsStr line.toLower "two-factor authentication (2fa) code" = b4
  generalize containsStr line.toLower "please enter" = b5
  generalize containsStr line.toLower "2fa" = b6
  generalize containsStr line.toLower "code" = b7
  generalize containsStr line.toLower "required" = b8
  cases b1 <;> cases b2 <;> cases b3 <;> cases b4 <;> cases b5 <;> cases b6 <;>
    cases b7 <;> cases b8 <;> rfl

/-- C9: the entrypoint process is started with working directory equal to the
sandbox root, and with an environment equal to the ambient process
environment extended with one key=value string per builder secret, plus
PYTHONUNBUFFERED=1, plus the integrated-mode flag INTEGRATED_BUILDER=1. -/
theorem signCmd_dir_env (workDir : FsPath) (entrypoint : String)
    (ambient : List String) (secrets : List (String × String)) :
    (signCmd workDir entrypoint ambient secrets).dir = workDir
    ∧ (signCmd workDir entrypoint ambient secrets).env =
        ambient ++ secrets.map (fun p => p.1 ++ "=" ++ p.2) ++
          ["PYTHONUNBUFFERED=1", "INTEGRATED_BUILDER=1"]
    ∧ (∀ e, e ∈ ambient → e ∈ (signCmd workDir entrypoint ambient secrets).env)
    ∧ (∀ p, p ∈ secrets →
        (p.1 ++ "=" ++ p.2) ∈ (signCmd workDir entrypoint ambient secrets).env)
    ∧ "PYTHONUNBUFFERED=1" ∈ (signCmd workDir entrypoint ambient secrets).env
    ∧ "INTEGRATED_BUILDER=1" ∈ (signCmd workDir entrypoint ambient secrets).env := by
  refine ⟨rfl, rfl, ?_, ?_, ?_, ?_⟩
  · intro e he
    simp [signCmd, buildSignEnv, he]
  · intro p hp
    simp only [signCmd, buildSignEnv, List.mem_append, List.mem_map]
    exact Or.inl (Or.inr ⟨p, hp, rfl⟩)
  · simp [signCmd, buildSignEnv]
  · simp [signCmd, buildSignEnv]

/-- Witness for C9 at a concrete secret map and ambient environment. -/
theorem signCmd_dir_env_check :
    ("SECRET_KEY" ++ "=" ++ "k1") ∈
      (signCmd ["tmp", "sb"] "sign.py" ["PATH=/bin"] [("SECRET_KEY", "k1")]).env
    ∧ "PATH=/bin" ∈
      (signCmd ["tmp", "sb"] "sign.py" ["PATH=/bin"] [("SECRET_KEY", "k1")]).env :=
  ⟨(signCmd_dir_env ["tmp", "sb"] "sign.py" ["PATH=/bin"] [("SECRET_KEY", "k1")]).2.2.2.1
      ("SECRET_KEY", "k1") (by decide),
   (signCmd_dir_env ["tmp", "sb"] "sign.py" ["PATH=/bin"] [("SECRET_KEY", "k1")]).2.2.1
      "PATH=/bin" (by decide)⟩

/-- C10: Prompt2FA returns the trimmed code read from standard input with no
error whether or not a queue entry exists for the app id; with no entry the
code is stored nowhere (storage is unchanged), and with an entry the trimmed
code is stored into that entry's two-factor slot. -/
theorem prompt2FA_spec (raw : String) (st : SysState) (appId : String) :
    (prompt2FA (.ok raw) st appId).1 = .ok (trimWhitespace raw)
    ∧ (findJobByAppId st.jobs appId = none → (prompt2FA (.ok raw) st appId).2 = st)
    ∧ (∀ jid job, findJobByAppId st.jobs appId = some (jid, job) →
        lookupKey ((prompt2FA (.ok raw) st appId).2).jobs jid =
          some { job with twoFactorCode := trimWhitespace raw }) := by
  refine ⟨?_, ?_, ?_⟩
  · cases h : findJobByAppId st.jobs appId <;> simp [prompt2FA, h]
  · intro h
    simp [prompt2FA, h]
  · intro jid job h
    simp [prompt2FA, h, lookupKey_setKey]

/-- Witness for C10 at a queue with one entry for the app. -/
theorem prompt2FA_check :
    lookupKey ((prompt2FA (.ok " 123456\n")
        { jobs := [("j9", { appId := "app9", twoFactorCode := "" })], apps := [] }
        "app9").2).jobs "j9"
      = some { appId := "app9", twoFactorCode := trimWhitespace " 123456\n" } :=
  (prompt2FA_spec " 123456\n"
      { jobs := [("j9", { appId := "app9", twoFactorCode := "" })], apps := [] }
      "app9").2.2 "j9" { appId := "app9", twoFactorCode := "" } (by decide)

/-- The Wait Loop is decided by the first poll that no longer sees the queue
entry: success when the application is signed there, failure when it is not,
timeout when no such poll occurs before the deadline. -/
theorem waitLoop_find_characterization (obs : List PollObs) :
    waitLoop obs =
      match obs.find? (fun o => o.entry.isNone) with
      | none => .timeoutExpired
      | some o => if o.signed then .success else .completedNotSigned := by
  induction obs with
  | nil => rfl
  | cons o rest ih =>
    cases he : o.entry with
    | some v => simp [waitLoop, List.find?, he, ih]
    | none => simp [waitLoop, List.find?, he]

/-- C1: the Wait Loop terminates with exactly one of success,
completed-but-not-signed, or timeout; the first poll that observes the queue
entry gone decides the run - a present "signed" artifact gives success and an
absent one gives the failure, never success - and when the entry outlives
every poll before the builder's job deadline the loop reports the timeout. -/
theorem waitLoop_outcomes (obs : List PollObs) :
    (waitLoop obs = .success ∨ waitLoop obs = .completedNotSigned ∨
      waitLoop obs = .timeoutExpired)
    ∧ (∀ o, obs.find? (fun x => x.entry.isNone) = some o →
        ((o.signed = true → waitLoop obs = .success)
          ∧ (o.signed = false → waitLoop obs = .completedNotSigned)))
    ∧ (obs.find? (fun x => x.entry.isNone) = none →
        waitLoop obs = .timeoutExpired) := by
  rw [waitLoop_find_characterization obs]
  cases hf : obs.find? (fun x => x.entry.isNone) with
  | none => simp
  | some o => cases hs : o.signed <;> simp_all

/-- Witness for C1: a run whose entry is present once, then gone with the
application signed, succeeds. -/
theorem waitLoop_outcomes_check :
    waitLoop [{ entry := some "job-1", signed := false },
              { entry := none, signed := true }] = .success :=
  ((waitLoop_outcomes [{ entry := some "job-1", signed := false },
      { entry := none, signed := true }]).2.1
    { entry := none, signed := true } (by rfl)).1 rfl

/-- A job environment in which every external call succeeds, the sandbox ends
up empty and there are no secrets, for concrete instantiations. -/
def quietEnv : JobEnv :=
  { workDir := ["tmp", "sb"], tempDirErr := none, absErr := none,
    copySignFilesErr := none, getUnsignedErr := none, createUnsignedErr := none,
    copyUnsignedErr := none, stdoutPipeErr := none, stderrPipeErr := none,
    startErr := none, runErr := none, outputLines := [], signedIpa := none,
    openSignedErr := none, setSignedErr := none, bundleIdTxt := none,
    ambientEnv := [], secrets := [], entrypoint := "sign.py" }

/-- A storage state holding one queue entry whose application is missing. -/
def jobOnlyState : SysState :=
  { jobs := [("j1", { appId := "app1", twoFactorCode := "" })], apps := [] }

/-- The application record used by the concrete success runs. -/
def smallApp : AppRec := { files := [("unsigned", "U")], strs := [] }

/-- A storage state holding one queue entry and its application. -/
def smallState : SysState :=
  { jobs := [("j1", { appId := "app1", twoFactorCode := "" })],
    apps := [("app1", smallApp)] }

/-- C2: whenever a job attempt fails after the job id has been determined, no
queue entry for that id remains once the error is returned: an inner attempt
failure deletes the entry before the error propagates, a job id whose entry
is already absent leaves nothing behind, and a partial archive read still
extracts the job id from the partial buffer and deletes the corresponding
entry before the read error propagates. -/
theorem processIntegratedJob_cleanup_on_failure (env : JobEnv) (st : SysState) :
    (∀ archive msg, extractJobIdFromArchive archive ≠ "" →
        (processIntegratedJob (.ok archive) env st).1 = .error msg →
        lookupKey ((processIntegratedJob (.ok archive) env st).2).jobs
          (extractJobIdFromArchive archive) = none)
    ∧ (∀ msg readSoFar, extractJobIdFromArchive readSoFar ≠ "" →
        (processIntegratedJob (.copyErr msg readSoFar) env st).1 = .error msg
        ∧ lookupKey ((processIntegratedJob (.copyErr msg readSoFar) env st).2).jobs
            (extractJobIdFromArchive readSoFar) = none) := by
  constructor
  · intro archive msg hne herr
    simp only [processIntegratedJob, if_neg hne] at herr ⊢
    cases hlk : lookupKey st.jobs (extractJobIdFromArchive archive) with
    | none => simp [hlk]
    | some job =>
      cases hij : innerJob env st job.appId (extractJobIdFromArchive archive) archive with
      | error e => simp [hlk, hij, jobsDelete, lookupKey_removeKey]
      | ok st2 => simp [hlk, hij] at herr
  · intro msg readSoFar hne
    constructor
    · simp [processIntegratedJob, if_neg hne]
    · simp [processIntegratedJob, if_neg hne, jobsDelete, lookupKey_removeKey]

/-- Witness for C2: a concrete attempt whose application record is missing
fails after the job id is known, and leaves no queue entry for that id. -/
theorem processIntegratedJob_cleanup_check :
    lookupKey ((processIntegratedJob
        (.ok [TarEvent.entry { name := "id.txt", isDir := false, mode := 420,
                               payload := some "j1" }])
        quietEnv jobOnlyState).2).jobs
      (extractJobIdFromArchive
        [TarEvent.entry { name := "id.txt", isDir := false, mode := 420,
                          payload := some "j1" }]) = none :=
  (processIntegratedJob_cleanup_on_failure quietEnv jobOnlyState).1
    [TarEvent.entry { name := "id.txt", isDir := false, mode := 420,
                      payload := some "j1" }]
    "app not found: app1" (by decide) (by rfl)

/-- The optional bundle-id step of the success path (integrated_job.go lines
322-328): when bundle_id.txt exists its trimmed content is stored as the
application's "bundle_id" string, and its absence changes nothing. -/
def bundleApply : Option String → AppRec → AppRec
  | some b, a => a.setString "bundle_id" (trimWhitespace b)
  | none, a => a

/-- C4: when the entrypoint exits with status 0 and signed.ipa exists in the
sandbox, the artifact is stored on the application under the name "signed",
the trimmed content of bundle_id.txt is stored as "bundle_id" when that file
exists (its absence raises no error), and the queue entry for the job id is
deleted; when signed.ipa does not exist the attempt fails with an error
instead. -/
theorem innerJob_success_stores_and_cleans (wd : FsPath) (st : SysState)
    (appId jid : String) (app : AppRec) (amb : List String)
    (secrets : List (String × String)) (ep : String) (lines : List String)
    (archive : List TarEvent) (harc : (extractArchive wd archive).2 = none)
    (happ : lookupKey st.apps appId = some app) :
    (∀ (c : String) (b : Option String),
      ∃ st' app2,
        innerJob { workDir := wd, tempDirErr := none, absErr := none,
                   copySignFilesErr := none, getUnsignedErr := none,
                   createUnsignedErr := none, copyUnsignedErr := none,
                   stdoutPipeErr := none, stderrPipeErr := none, startErr := none,
                   runErr := none, outputLines := lines, signedIpa := some c,
                   openSignedErr := none, setSignedErr := none, bundleIdTxt := b,
                   ambientEnv := amb, secrets := secrets, entrypoint := ep }
            st appId jid archive = .ok st'
        ∧ lookupKey st'.jobs jid = none
        ∧ lookupKey st'.apps appId = some app2
        ∧ lookupKey app2.files "signed" = some c
        ∧ (∀ bv, b = some bv →
            lookupKey app2.strs "bundle_id" = some (trimWhitespace bv)))
    ∧ innerJob { workDir := wd, tempDirErr := none, absErr := none,
                 copySignFilesErr := none, getUnsignedErr := none,
                 createUnsignedErr := none, copyUnsignedErr := none,
                 stdoutPipeErr := none, stderrPipeErr := none, startErr := none,
                 runErr := none, outputLines := lines, signedIpa := none,
                 openSignedErr := none, setSignedErr := none, bundleIdTxt := none,
                 ambientEnv := amb, secrets := secrets, entrypoint := ep }
        st appId jid archive = .error "signed app not found" := by
  constructor
  · intro c b
    have hrun : innerJob { workDir := wd, tempDirErr := none, absErr := none,
                            copySignFilesErr := none, getUnsignedErr := none,
                            createUnsignedErr := none, copyUnsignedErr := none,
                            stdoutPipeErr := none, stderrPipeErr := none, startErr := none,
                            runErr := none, outputLines := lines, signedIpa := some c,
                            openSignedErr := none, setSignedErr := none, bundleIdTxt := b,
                            ambientEnv := amb, secrets := secrets, entrypoint := ep }
            st appId jid archive
        = .ok { jobs := removeKey st.jobs jid,
                apps := setKey st.apps appId (bundleApply b (app.setFile "signed" c)) } := by
      cases b <;> simp only [innerJob, harc, happ, jobsDelete, bundleApply]
    refine ⟨_, bundleApply b (app.setFile "signed" c), hrun, ?_, ?_, ?_, ?_⟩
    · exact lookupKey_removeKey st.jobs jid
    · exact lookupKey_setKey st.apps appId _
    · cases b with
      | none => exact lookupKey_setKey app.files "signed" c
      | some bv => exact lookupKey_setKey app.files "signed" c
    · intro bv hbv
      subst hbv
      exact lookupKey_setKey _ "bundle_id" _
  · simp only [innerJob, harc, happ]

/-- Witness for C4: a concrete zero-exit run with signed.ipa and
bundle_id.txt present. -/
theorem innerJob_success_check :
    ∃ st' app2,
      innerJob { workDir := ["tmp", "sb"], tempDirErr := none, absErr := none,
                 copySignFilesErr := none, getUnsignedErr := none,
                 createUnsignedErr := none, copyUnsignedErr := none,
                 stdoutPipeErr := none, stderrPipeErr := none, startErr := none,
                 runErr := none, outputLines := [], signedIpa := some "SIGNED",
                 openSignedErr := none, setSignedErr := none,
                 bundleIdTxt := some " com.example.app ",
                 ambientEnv := [], secrets := [], entrypoint := "sign.py" }
          smallState "app1" "j1" [] = .ok st'
      ∧ lookupKey st'.jobs "j1" = none
      ∧ lookupKey st'.apps "app1" = some app2
      ∧ lookupKey app2.files "signed" = some "SIGNED"
      ∧ (∀ bv, (some " com.example.app " : Option String) = some bv →
          lookupKey app2.strs "bundle_id" = some (trimWhitespace bv)) :=
  (innerJob_success_stores_and_cleans ["tmp", "sb"] smallState "app1" "j1" smallApp
      [] [] "sign.py" [] [] rfl rfl).1 "SIGNED" (some " com.example.app ")

/-- Every captured line occurs verbatim inside the capture buffer's
contents. -/
theorem linesJoin_split (l : String) : ∀ (ls : List String), l ∈ ls →
    ∃ p s, linesJoin ls = p ++ l ++ s := by
  intro ls
  induction ls with
  | nil => intro h; cases h
  | cons x rest ih =>
    intro h
    rcases List.mem_cons.mp h with h | h
    · subst h
      refine ⟨"", "\n" ++ linesJoin rest, ?_⟩
      show (l ++ "\n") ++ linesJoin rest = ("" ++ l) ++ ("\n" ++ linesJoin rest)
      rw [String.append_assoc]
      rfl
    · obtain ⟨p, s, hp⟩ := ih h
      refine ⟨(x ++ "\n") ++ p, s, ?_⟩
      show (x ++ "\n") ++ linesJoin rest = (((x ++ "\n") ++ p) ++ l) ++ s
      rw [hp, ← String.append_assoc, ← String.append_assoc]

/-- C6: a non-zero exit status (or the elapsed deadline) fails the attempt
with the composite "sign script" error carrying both the process's own error
text and the full captured combined output, so any line either stream
produced - stderr included - appears verbatim in the failure message; a zero
exit status passes the run step. -/
theorem innerJob_run_failure_composite (wd : FsPath) (st : SysState)
    (appId jid : String) (app : AppRec) (amb : List String)
    (secrets : List (String × String)) (ep : String) (archive : List TarEvent)
    (harc : (extractArchive wd archive).2 = none)
    (happ : lookupKey st.apps appId = some app)
    (e : String) (lines : List String) :
    innerJob { workDir := wd, tempDirErr := none, absErr := none,
               copySignFilesErr := none, getUnsignedErr := none,
               createUnsignedErr := none, copyUnsignedErr := none,
               stdoutPipeErr := none, stderrPipeErr := none, startErr := none,
               runErr := some e, outputLines := lines, signedIpa := none,
               openSignedErr := none, setSignedErr := none, bundleIdTxt := none,
               ambientEnv := amb, secrets := secrets, entrypoint := ep }
        st appId jid archive
      = .error ("sign script: " ++ e ++ ": " ++ linesJoin lines)
    ∧ (∃ p s, "sign script: " ++ e ++ ": " ++ linesJoin lines = p ++ e ++ s)
    ∧ (∀ l, l ∈ lines →
        ∃ p s, "sign script: " ++ e ++ ": " ++ linesJoin lines = p ++ l ++ s)
    ∧ (∀ c, ∃ st',
        innerJob { workDir := wd, tempDirErr := none, absErr := none,
                   copySignFilesErr := none, getUnsignedErr := none,
                   createUnsignedErr := none, copyUnsignedErr := none,
                   stdoutPipeErr := none, stderrPipeErr := none, startErr := none,
                   runErr := none, outputLines := lines, signedIpa := some c,
                   openSignedErr := none, setSignedErr := none, bundleIdTxt := none,
                   ambientEnv := amb, secrets := secrets, entrypoint := ep }
            st appId jid archive = .ok st') := by
  refine ⟨?_, ?_, ?_, ?_⟩
  · simp only [innerJob, harc, happ]
  · exact ⟨"sign script: ", ": " ++ linesJoin lines,
      String.append_assoc ("sign script: " ++ e) ": " (linesJoin lines)⟩
  · intro l hl
    obtain ⟨p, s, hp⟩ := linesJoin_split l lines hl
    refine ⟨"sign script: " ++ e ++ ": " ++ p, s, ?_⟩
    rw [String.append_assoc ("sign script: " ++ e) ": " (linesJoin lines), hp,
      ← String.append_assoc, ← String.append_assoc, ← String.append_assoc]
  · intro c
    refine ⟨{ jobs := removeKey st.jobs jid,
              apps := setKey st.apps appId (app.setFile "signed" c) }, ?_⟩
    simp only [innerJob, harc, happ, jobsDelete]

/-- Witness for C6: the failure message of a run whose stderr produced
"ERROR: cert expired" under exit status 1 contains that text. -/
theorem innerJob_run_failure_check :
    ∃ p s, "sign script: " ++ "exit status 1" ++ ": " ++
        linesJoin ["ERROR: cert expired"]
      = p ++ "ERROR: cert expired" ++ s :=
  (innerJob_run_failure_composite ["tmp", "sb"] smallState "app1" "j1" smallApp
      [] [] "sign.py" [] rfl rfl "exit status 1" ["ERROR: cert expired"]).2.2.1
    "ERROR: cert expired" (by decide)
